import Mathlib

/-!
Verification development for the CodeCanvas AI streaming-classification and
code-normalization core.

The definitions below are shallow embeddings of:
  * the streaming loop of `handleSendMessage` in `src/app/page.tsx`
    (marker classification, incremental accumulation, success / failure paths);
  * the space-stripping applied to the preview input at `src/app/page.tsx:327`;
  * the `cleanedCode` normalizer of `ReactLivePreview` in
    `src/components/live-preview.tsx` (fence stripping, complete-component
    detection, the raw-fragment regex rewriting chain, wrapping);
  * the `ErrorBoundary` component of `src/components/ErrorBoundary.tsx`.

JavaScript strings are modelled as Lean `String` / `List Char`; the JS regex
replaces are hand-compiled into character scanners with the same
leftmost-match, global-continuation semantics.  All definitions are total; the
source's `try`/`catch` wrappers guard operations none of which can throw on
any input, so the catch branches are unreachable and not represented except
where noted.
-/

namespace CodeCanvas

/-- ASCII part of the JavaScript `\s` class (the inputs here are ASCII). -/
def jsWs (c : Char) : Bool :=
  c = ' ' || c = '\t' || c = '\n' || c = '\r' || c = '\x0b' || c = '\x0c'

/-- JavaScript `\w` class: `[A-Za-z0-9_]`. -/
def isWordChar (c : Char) : Bool :=
  ('a' ≤ c && c ≤ 'z') || ('A' ≤ c && c ≤ 'Z') || ('0' ≤ c && c ≤ '9') || c = '_'

/-- `String.prototype.trim` on the character list. -/
def trimL (l : List Char) : List Char :=
  ((l.dropWhile jsWs).reverse.dropWhile jsWs).reverse

/-- `String.prototype.trim`. -/
def jsTrim (s : String) : String := String.mk (trimL s.data)

/-- `String.prototype.startsWith` on character lists. -/
def startsL : List Char → List Char → Bool
  | [], _ => true
  | _ :: _, [] => false
  | p :: ps, c :: cs => p = c && startsL ps cs

/-- Drop the first `n` characters of a string (JS `substring(n)`). -/
def dropS (n : Nat) (s : String) : String := String.mk (s.data.drop n)

/-! ## The streaming loop of `handleSendMessage` (`src/app/page.tsx`, lines 136–228) -/

/-- The `responseType` values `'CHAT' | 'CODE'` (`null` is `Option.none`). -/
inductive RType where
  | CHAT
  | CODE
deriving DecidableEq, Repr

/-- The state touched by the streaming loop: the loop-local variables
`isFirstChunk`, `responseType`, `streamedContent`, together with the
user-visible React state the loop writes to — the AI message's `content` and
`code` fields, the active file's content, and `streamingCode`.  `failed`
records that the `catch` branch ran (the session's failure surface). -/
structure SessionState where
  isFirstChunk : Bool
  responseType : Option RType
  streamedContent : String
  aiContent : String
  aiCode : Option String
  fileContent : String
  streamingCode : String
  failed : Bool
deriving DecidableEq, Repr

/-- State right after the setup of `handleSendMessage` (lines 136–145):
`streamedContent = ""`, `setStreamingCode("")`, the AI placeholder message
pushed with content `"..."`. -/
def initialState (file : String) : SessionState :=
  { isFirstChunk := true
    responseType := none
    streamedContent := ""
    aiContent := "..."
    aiCode := none
    fileContent := file
    streamingCode := ""
    failed := false }

/-- One iteration of the `while (true)` read loop (lines 163–202) on a decoded
chunk.  `fw` is `selectedFramework`. -/
def processChunk (fw : String) (s : SessionState) (chunk : String) : SessionState :=
  let rc : Option RType × String :=
    if s.isFirstChunk then
      if startsL "CHAT:".data chunk.data then (some .CHAT, dropS 5 chunk)
      else if startsL "CODE:".data chunk.data then (some .CODE, dropS 5 chunk)
      else (s.responseType, chunk)
    else (s.responseType, chunk)
  let streamed := s.streamedContent ++ rc.2
  match rc.1 with
  | some .CHAT =>
      { s with isFirstChunk := false, responseType := some .CHAT,
               streamedContent := streamed, aiContent := streamed }
  | some .CODE =>
      { s with isFirstChunk := false, responseType := some .CODE,
               streamedContent := streamed,
               streamingCode := streamed,
               fileContent := streamed,
               aiContent := "Generating " ++ fw.toUpper ++ " code...",
               aiCode := some streamed }
  | none =>
      { s with isFirstChunk := false, streamedContent := streamed }

/-- Run the read loop over the frames of the stream. -/
def runStream (fw : String) (file : String) (chunks : List String) : SessionState :=
  chunks.foldl (processChunk fw) (initialState file)

/-- The post-loop success path (lines 204–214): only `responseType === "CODE"`
updates the final message. -/
def finishOk (fw : String) (s : SessionState) : SessionState :=
  match s.responseType with
  | some .CODE =>
      { s with aiContent := fw.toUpper ++ " code generated successfully!",
               aiCode := some s.streamedContent }
  | _ => s

/-- The `catch` branch (lines 216–221): the AI message content is replaced by
a fixed error string; all other fields are kept by the object spread. -/
def finishErr (s : SessionState) : SessionState :=
  { s with aiContent := "Error: Could not generate a response.", failed := true }

/-- A session whose stream ends normally after `chunks`. -/
def runOk (fw : String) (file : String) (chunks : List String) : SessionState :=
  finishOk fw (runStream fw file chunks)

/-- A session whose transport fails after the frames `chunks` were received
and processed. -/
def runFailed (fw : String) (file : String) (chunks : List String) : SessionState :=
  finishErr (runStream fw file chunks)

/-! ## The preview input (`src/app/page.tsx`, line 327) -/

/-- `activeFile.content.replace(/ /g, '')` — the string handed to
`LivePreview` (and hence to `ReactLivePreview`): the buffer with every ASCII
space removed. -/
def previewCode (s : String) : String := String.mk (s.data.filter (· ≠ ' '))

/-! ## The `cleanedCode` normalizer
(`src/components/live-preview.tsx`, `ReactLivePreview`, lines 200–291)

Each JS regex `replace` is hand-compiled to a character scanner with the same
semantics: scan left to right, at each position attempt the pattern (with the
regex engine's greedy/lazy backtracking order where it matters), on success
emit the replacement and continue after the matched text, otherwise emit one
character and advance.  The scanners carry a fuel argument for structural
recursion; every step consumes at least one character, so `length + 1` fuel
always suffices and the fuel-exhausted branch is unreachable. -/

/-- Case-insensitive ASCII prefix test (regex `/i` flag). -/
def startsCI : List Char → List Char → Bool
  | [], _ => true
  | _ :: _, [] => false
  | p :: ps, c :: cs => p.toLower = c.toLower && startsCI ps cs

/-- `.replace(/^```(?:jsx|javascript|tsx|react)?\s*/i, '')`: strip one leading
markdown fence, an optional language tag (alternatives tried in the regex's
order) and the following whitespace. -/
def stripLeadingFence (l : List Char) : List Char :=
  if startsL "```".data l then
    let t := l.drop 3
    let t' :=
      match ["jsx", "javascript", "tsx", "react"].find? (fun kw => startsCI kw.data t) with
      | some kw => t.drop kw.length
      | none => t
    t'.dropWhile jsWs
  else l

/-- `.replace(/```\s*$/i, '')`: delete from the leftmost fence that is
followed only by whitespace up to the end of the string. -/
def stripTrailingFence : List Char → List Char
  | [] => []
  | c :: cs =>
    if startsL "```".data (c :: cs) && ((c :: cs).drop 3).all jsWs then []
    else c :: stripTrailingFence cs

/-- `processedCode` after fence stripping and `.trim()` (lines 206–209). -/
def processedOf (code : String) : List Char :=
  trimL (stripTrailingFence (stripLeadingFence code.data))

/-- The declaration keywords of the classification regexes, in the
alternation's order. -/
def declKeywords : List String := ["const", "function", "class"]

/-- `\s+\w` right after a keyword: at least one whitespace character and then
a word character (the greedy `\s+` backtracks to nothing useful, so this is
exact). -/
def kwTailMatches (q : List Char) : Bool :=
  match q with
  | [] => false
  | c :: _ =>
    jsWs c &&
      (match q.dropWhile jsWs with
       | [] => false
       | d :: _ => isWordChar d)

/-- `/^(const|function|class)\s+\w+/i.test(processedCode)` (line 216). -/
def isCompleteComponent (p : List Char) : Bool :=
  declKeywords.any (fun kw => startsCI kw.data p && kwTailMatches (p.drop kw.length))

/-- `processedCode.match(/^(?:const|function|class)\s+(\w+)/)` (line 220):
the captured component name when the case-sensitive match succeeds. -/
def componentMatch (p : List Char) : Option (List Char) :=
  declKeywords.findSome? (fun kw =>
    if startsL kw.data p then
      let q := p.drop kw.length
      if kwTailMatches q then some ((q.dropWhile jsWs).takeWhile isWordChar)
      else none
    else none)

/-- `processedCode.match(/</)` and `substring(firstTagIndex)` (lines 232–236):
the suffix from the first `<`, or `none` when there is no tag start. -/
def dropToFirstTag : List Char → Option (List Char)
  | [] => none
  | c :: cs => if c = '<' then some (c :: cs) else dropToFirstTag cs

/-- Length of the leading whitespace run. -/
def countWs (l : List Char) : Nat := (l.takeWhile jsWs).length

/-- `\s*-->`: greedy `\s*` (longest first) then the literal; the rest after
the match. -/
def matchWsArrow (l : List Char) : Option (List Char) :=
  ((List.range (countWs l + 1)).reverse).findSome? (fun c =>
    if startsL "-->".data (l.drop c) then some ((l.drop c).drop 3) else none)

/-- `(.*?)\s*-->`: lazy body (shortest first, no line terminators) then
`matchWsArrow`; the captured body and the rest. -/
def matchBodyArrow (l : List Char) : Option (List Char × List Char) :=
  (List.range (l.length + 1)).findSome? (fun b =>
    let body := l.take b
    if body.all (fun c => c ≠ '\n' && c ≠ '\r') then
      (matchWsArrow (l.drop b)).map (fun rest => (body, rest))
    else none)

/-- `\s*(.*?)\s*-->` right after `<!--`: the leading greedy `\s*` is tried
longest first. -/
def matchComment (l : List Char) : Option (List Char × List Char) :=
  ((List.range (countWs l + 1)).reverse).findSome? (fun a => matchBodyArrow (l.drop a))

def replCommentsGo : Nat → List Char → List Char
  | 0, l => l
  | _ + 1, [] => []
  | n + 1, c :: cs =>
    if startsL "<!--".data (c :: cs) then
      match matchComment ((c :: cs).drop 4) with
      | some (body, rest) =>
          "\x7b/* ".data ++ body ++ " */\x7d".data ++ replCommentsGo n rest
      | none => c :: replCommentsGo n cs
    else c :: replCommentsGo n cs

/-- `.replace(/<!--\s*(.*?)\s*-->/g, '{/* $1 */}')` (line 240). -/
def replComments (l : List Char) : List Char := replCommentsGo (l.length + 1) l

/-- `.replace(/\bclass=/g, 'className=')` (line 241).  The Bool argument
tracks whether the previous character is a word character (`\b` holds before
`class=` exactly when it is not). -/
def replClassGo : Nat → Bool → List Char → List Char
  | 0, _, l => l
  | _ + 1, _, [] => []
  | n + 1, pw, c :: cs =>
    if !pw && startsL "class=".data (c :: cs) then
      "className=".data ++ replClassGo n false ((c :: cs).drop 6)
    else c :: replClassGo n (isWordChar c) cs

def replClass (l : List Char) : List Char := replClassGo (l.length + 1) false l

/-- `.replace(/\bfor=/g, 'htmlFor=')` (line 242). -/
def replForGo : Nat → Bool → List Char → List Char
  | 0, _, l => l
  | _ + 1, _, [] => []
  | n + 1, pw, c :: cs =>
    if !pw && startsL "for=".data (c :: cs) then
      "htmlFor=".data ++ replForGo n false ((c :: cs).drop 4)
    else c :: replForGo n (isWordChar c) cs

def replFor (l : List Char) : List Char := replForGo (l.length + 1) false l

/-- The characters before the first `"` and the rest after it (`([^"]*)"`);
`none` when no closing quote exists (the style pattern then fails). -/
def untilQuote : List Char → Option (List Char × List Char)
  | [] => none
  | c :: cs =>
    if c = '"' then some ([], cs)
    else (untilQuote cs).map (fun p => (c :: p.1, p.2))

/-- The camel-casing of a style key (line 252): `key.replace` with the global
pattern "a dash then a captured lowercase letter", each match replaced by the
letter upper-cased. -/
def camelGo : List Char → List Char
  | [] => []
  | '-' :: c :: rest =>
      if c.isLower then c.toUpper :: camelGo rest else '-' :: camelGo (c :: rest)
  | c :: rest => c :: camelGo rest

/-- JavaScript `String.prototype.split` with a one-character separator:
`"".split(sep)` is `[""]`, and separators at the ends produce empty pieces. -/
def splitOnChar (sep : Char) : List Char → List (List Char)
  | [] => [[]]
  | c :: cs =>
      if c = sep then [] :: splitOnChar sep cs
      else
        match splitOnChar sep cs with
        | [] => [[c]]
        | h :: t => (c :: h) :: t

/-- `s.split(':').map((p) => p.trim())` for one declaration (line 250). -/
def declParts (s : String) : List String :=
  (splitOnChar ':' s.data).map (fun p => jsTrim (String.mk p))

/-- The arrow-function body mapped over the declarations (lines 250–253): one
`key: value` declaration; a missing or blank key or value yields `""`. -/
def convDecl (s : String) : String :=
  match declParts s with
  | [] => ""
  | key :: rest =>
    match rest.head? with
    | none => ""
    | some v =>
        if key = "" || v = "" then ""
        else String.mk (camelGo key.data) ++ ": '" ++ v ++ "'"

/-- The whole style-string conversion (lines 245–256): split on `;`, drop
blank declarations, convert each, drop the failed ones, join with `, `. -/
def styleObj (styles : String) : String :=
  String.intercalate ", "
    (((((splitOnChar ';' styles.data).map String.mk).filter
        (fun s => jsTrim s ≠ "")).map convDecl).filter (fun s => s ≠ ""))

/-- `.replace(/\bstyle="([^"]*)"/g, …)` (lines 243–261): the conversion
callback never throws, so the `catch` that returns the original match is
unreachable. -/
def replStyleGo : Nat → Bool → List Char → List Char
  | 0, _, l => l
  | _ + 1, _, [] => []
  | n + 1, pw, c :: cs =>
    if !pw && startsL "style=\"".data (c :: cs) then
      match untilQuote ((c :: cs).drop 7) with
      | some (v, rest) =>
          ("style=\x7b\x7b" ++ styleObj (String.mk v) ++ "\x7d\x7d").data ++
            replStyleGo n false rest
      | none => c :: replStyleGo n (isWordChar c) cs
    else c :: replStyleGo n (isWordChar c) cs

def replStyle (l : List Char) : List Char := replStyleGo (l.length + 1) false l

/-- `.replace(/\s+>/g, '>')` (line 263): a whole whitespace run directly
before `>` is deleted (a shorter run still ends in whitespace, so only the
maximal run can match). -/
def wsGtGo : Nat → List Char → List Char
  | 0, l => l
  | _ + 1, [] => []
  | n + 1, c :: cs =>
    if jsWs c then
      let m := countWs (c :: cs)
      match ((c :: cs).drop m) with
      | '>' :: rest => '>' :: wsGtGo n rest
      | _ => c :: wsGtGo n cs
    else c :: wsGtGo n cs

def wsGt (l : List Char) : List Char := wsGtGo (l.length + 1) l

/-- `.replace(/<\s+/g, '<')` (line 264). -/
def ltWsGo : Nat → List Char → List Char
  | 0, l => l
  | _ + 1, [] => []
  | n + 1, c :: cs =>
    if c = '<' then
      match cs with
      | d :: _ =>
          if jsWs d then '<' :: ltWsGo n (cs.dropWhile jsWs)
          else '<' :: ltWsGo n cs
      | [] => ['<']
    else c :: ltWsGo n cs

def ltWs (l : List Char) : List Char := ltWsGo (l.length + 1) l

/-- `.replace(/\s+</g, '<')` (line 265). -/
def wsLtGo : Nat → List Char → List Char
  | 0, l => l
  | _ + 1, [] => []
  | n + 1, c :: cs =>
    if jsWs c then
      let m := countWs (c :: cs)
      match ((c :: cs).drop m) with
      | '<' :: rest => '<' :: wsLtGo n rest
      | _ => c :: wsLtGo n cs
    else c :: wsLtGo n cs

def wsLt (l : List Char) : List Char := wsLtGo (l.length + 1) l

/-- `.replace(/>\s+/g, '>')` (line 266). -/
def gtWsGo : Nat → List Char → List Char
  | 0, l => l
  | _ + 1, [] => []
  | n + 1, c :: cs =>
    if c = '>' then
      match cs with
      | d :: _ =>
          if jsWs d then '>' :: gtWsGo n (cs.dropWhile jsWs)
          else '>' :: gtWsGo n cs
      | [] => ['>']
    else c :: gtWsGo n cs

def gtWs (l : List Char) : List Char := gtWsGo (l.length + 1) l

/-- `\s*` then a literal `>` within the self-closing pattern: greedy, longest
first; the rest after the `>`. -/
def matchWsGtLit (l : List Char) : Option (List Char) :=
  ((List.range (countWs l + 1)).reverse).findSome? (fun c =>
    match l.drop c with
    | '>' :: rest => some rest
    | _ => none)

/-- `\s*</name>`: greedy `\s*` then the closing tag; the rest after it. -/
def matchClosing (name l : List Char) : Option (List Char) :=
  ((List.range (countWs l + 1)).reverse).findSome? (fun d =>
    if startsL ("</".data ++ name ++ ">".data) (l.drop d) then
      some ((l.drop d).drop (name.length + 3))
    else none)

/-- `<(\w+)([^>]*?)\s*>\s*<\/\1>` tried right after a `<`: greedy `(\w+)`
(longest name first), lazy `([^>]*?)` (shortest attribute run first), then
the two greedy `\s*` parts.  On success, the replacement tail
`$1$2 />` (after the already-emitted `<`) and the rest of the input. -/
def trySelfClose (l : List Char) : Option (List Char × List Char) :=
  let maxName := (l.takeWhile isWordChar).length
  ((List.range maxName).reverse).findSome? (fun i =>
    let nameLen := i + 1
    let name := l.take nameLen
    let rest1 := l.drop nameLen
    (List.range (rest1.length + 1)).findSome? (fun b =>
      let attrs := rest1.take b
      if attrs.all (fun c => c ≠ '>') then
        (matchWsGtLit (rest1.drop b)).bind (fun rest3 =>
          (matchClosing name rest3).map (fun rest4 =>
            (name ++ attrs ++ " />".data, rest4)))
      else none))

/-- `.replace(/<(\w+)([^>]*?)\s*>\s*<\/\1>/g, '<$1$2 />')` (line 268). -/
def selfCloseGo : Nat → List Char → List Char
  | 0, l => l
  | _ + 1, [] => []
  | n + 1, c :: cs =>
    if c = '<' then
      match trySelfClose cs with
      | some (repl, rest) => '<' :: (repl ++ selfCloseGo n rest)
      | none => c :: selfCloseGo n cs
    else c :: selfCloseGo n cs

def selfClose (l : List Char) : List Char := selfCloseGo (l.length + 1) l

/-- The characters before the first `}` and the rest after it (`([^}]*)}`). -/
def untilBrace : List Char → Option (List Char × List Char)
  | [] => none
  | c :: cs =>
    if c = '}' then some ([], cs)
    else (untilBrace cs).map (fun p => (c :: p.1, p.2))

/-- `.replace(/(\w+)\s*=\s*{([^}]*)}/g, '$1={$2}')` (line 270).  At a word
character, only the maximal word run can match (a shorter one is followed by
a word character, which is neither whitespace nor `=`). -/
def braceFixGo : Nat → List Char → List Char
  | 0, l => l
  | _ + 1, [] => []
  | n + 1, c :: cs =>
    if isWordChar c then
      let w := (c :: cs).takeWhile isWordChar
      let rest1 := ((c :: cs).drop w.length).dropWhile jsWs
      match rest1 with
      | '=' :: r2 =>
          (match r2.dropWhile jsWs with
           | '{' :: r3 =>
               (match untilBrace r3 with
                | some (v, rest) =>
                    (w ++ "=\x7b".data ++ v ++ "\x7d".data) ++ braceFixGo n rest
                | none => c :: braceFixGo n cs)
           | _ => c :: braceFixGo n cs)
      | _ => c :: braceFixGo n cs
    else c :: braceFixGo n cs

def braceFix (l : List Char) : List Char := braceFixGo (l.length + 1) l

/-- `.replace(/(\w+)\s*=\s*"([^"]*)"/g, '$1="$2"')` (line 271). -/
def quoteFixGo : Nat → List Char → List Char
  | 0, l => l
  | _ + 1, [] => []
  | n + 1, c :: cs =>
    if isWordChar c then
      let w := (c :: cs).takeWhile isWordChar
      let rest1 := ((c :: cs).drop w.length).dropWhile jsWs
      match rest1 with
      | '=' :: r2 =>
          (match r2.dropWhile jsWs with
           | '"' :: r3 =>
               (match untilQuote r3 with
                | some (v, rest) =>
                    (w ++ "=\"".data ++ v ++ "\"".data) ++ quoteFixGo n rest
                | none => c :: quoteFixGo n cs)
           | _ => c :: quoteFixGo n cs)
      | _ => c :: quoteFixGo n cs
    else c :: quoteFixGo n cs

def quoteFix (l : List Char) : List Char := quoteFixGo (l.length + 1) l

/-- The raw-fragment rewriting chain (lines 239–271), in the source's order. -/
def fragmentChain (l : List Char) : List Char :=
  quoteFix (braceFix (selfClose (gtWs (wsLt (ltWs (wsGt
    (replStyle (replFor (replClass (replComments l))))))))))

/-- The template literal of lines 223–227: the complete-component output. -/
def wrapComponent (p name : List Char) : String :=
  "\n" ++ String.mk p ++ "\n\nrender(<" ++ String.mk name ++ " />);\n          "

/-- The template literal of lines 274–283: the synthetic-component wrapper
around a rewritten fragment. -/
def wrapFragment (r : List Char) : String :=
  "\nconst GeneratedComponent = () => \x7b\n  return (\n    <React.Fragment>\n      " ++
    String.mk r ++
    "\n    </React.Fragment>\n  );\n\x7d;\nrender(<GeneratedComponent />);\n      "

/-- The raw-fragment path (lines 231–286): locate the first tag, rewrite,
wrap; `""` when no tag start exists. -/
def fragmentPath (p : List Char) : String :=
  match dropToFirstTag p with
  | none => ""
  | some q => wrapFragment (fragmentChain q)

/-- `cleanedCode` (lines 201–291).  `!code || !code.trim()` is equivalent to
`code.trim() = ""`.  The surrounding `try`/`catch` returns `""` only if a
step throws; no step can, so it is not represented. -/
def cleanedCode (code : String) : String :=
  if jsTrim code = "" then ""
  else if isCompleteComponent (processedOf code) then
    match componentMatch (processedOf code) with
    | some name => wrapComponent (processedOf code) name
    | none => fragmentPath (processedOf code)
  else fragmentPath (processedOf code)

/-- The render decision of `ReactLivePreview` (lines 293–317): an empty
normalized source shows the "No preview available" panel; otherwise the
source is mounted in a `LiveProvider`. -/
inductive PreviewView where
  | noPreview
  | live (source : String)
deriving DecidableEq, Repr

def renderReactPreview (code : String) : PreviewView :=
  if cleanedCode code = "" then .noPreview else .live (cleanedCode code)

/-! ## The fault boundary (`src/components/ErrorBoundary.tsx`) -/

/-- The boundary's state; an `Error` is modelled by its `message`. -/
structure EBState where
  hasError : Bool
  error : Option String
deriving DecidableEq, Repr

/-- The constructor's state (line 17). -/
def ebInitState : EBState := { hasError := false, error := none }

/-- `static getDerivedStateFromError(error)` (lines 20–22). -/
def getDerivedStateFromError (e : String) : EBState :=
  { hasError := true, error := some e }

/-- What `render()` returns. -/
inductive EBView where
  | fallbackPanel (msg : String)
  | childrenView (c : String)
deriving DecidableEq, Repr

/-- `render()` (lines 28–45): `this.state.error?.message || '…'` — the
default is used when `error` is absent or its message is the empty string
(both are falsy). -/
def ebRender (s : EBState) (children : String) : EBView :=
  if s.hasError then
    .fallbackPanel
      (match s.error with
       | some m => if m = "" then "Something went wrong rendering the preview." else m
       | none => "Something went wrong rendering the preview.")
  else .childrenView children

/-- React's boundary protocol around `render`: when the child throws during
rendering, the runtime calls `getDerivedStateFromError` and re-renders the
boundary in the new state; otherwise the children render normally. -/
def boundaryRender (children : String) (childRun : Except String String) : EBView :=
  match childRun with
  | .ok _ => ebRender ebInitState children
  | .error e => ebRender (getDerivedStateFromError e) children

/-! ## Substring search and concrete fixtures -/

/-- `needle` occurs as a contiguous substring of the second list. -/
def containsSub (needle : List Char) : List Char → Bool
  | [] => startsL needle []
  | c :: cs => startsL needle (c :: cs) || containsSub needle cs

/-- The spec's `REACT_LIKE` fixture buffer, as accumulated after the `CODE:`
marker is stripped by the classifier. -/
def bufC7 : String := "<div class=\"a\" style=\"color: red; font-size: 12px\">Hi</div>"

/-- The normalizer's output on `bufC7`: `class` renamed, the style string
converted to an object literal with camel-cased keys, the fragment wrapped in
the synthetic `GeneratedComponent` and rendered. -/
def expectedC7 : String :=
  "\nconst GeneratedComponent = () => \x7b\n  return (\n    <React.Fragment>\n      " ++
    "<div className=\"a\" style=\x7b\x7bcolor: 'red', fontSize: '12px'\x7d\x7d>Hi</div>" ++
    "\n    </React.Fragment>\n  );\n\x7d;\nrender(<GeneratedComponent />);\n      "

/-- A buffer whose style attribute contains the malformed declaration
`color` (no value) next to a well-formed one. -/
def bufC8 : String := "<div class=\"a\" style=\"color; font-size: 12px\">Hi</div>"

/-- The normalizer's output on `bufC8`: the malformed declaration is skipped,
everything else is normalized as usual. -/
def expectedC8 : String :=
  "\nconst GeneratedComponent = () => \x7b\n  return (\n    <React.Fragment>\n      " ++
    "<div className=\"a\" style=\x7b\x7bfontSize: '12px'\x7d\x7d>Hi</div>" ++
    "\n    </React.Fragment>\n  );\n\x7d;\nrender(<GeneratedComponent />);\n      "

/-! ### Preservation lemmas for the loop -/

theorem processChunk_not_first (fw : String) (s : SessionState) (c : String)
    (h : s.isFirstChunk = false) :
    (processChunk fw s c).responseType = s.responseType ∧
    (processChunk fw s c).isFirstChunk = false ∧
    (processChunk fw s c).streamedContent = s.streamedContent ++ c := by
  unfold processChunk
  rw [h]
  simp only [Bool.false_eq_true, if_false]
  cases hrt : s.responseType with
  | none => simp
  | some t => cases t <;> simp

theorem foldl_responseType (fw : String) (chunks : List String) (s : SessionState)
    (h : s.isFirstChunk = false) :
    (chunks.foldl (processChunk fw) s).responseType = s.responseType ∧
    (chunks.foldl (processChunk fw) s).isFirstChunk = false := by
  induction chunks generalizing s with
  | nil => exact ⟨rfl, h⟩
  | cons c cs ih =>
      obtain ⟨h1, h2, _⟩ := processChunk_not_first fw s c h
      simpa [List.foldl_cons, h1] using
        (ih (processChunk fw s c) h2)

theorem foldl_streamed (fw : String) (chunks : List String) (s : SessionState)
    (h : s.isFirstChunk = false) :
    (chunks.foldl (processChunk fw) s).streamedContent =
      List.foldl (· ++ ·) s.streamedContent chunks := by
  induction chunks generalizing s with
  | nil => rfl
  | cons c cs ih =>
      obtain ⟨_, h2, h3⟩ := processChunk_not_first fw s c h
      rw [List.foldl_cons, List.foldl_cons, ih (processChunk fw s c) h2, h3]

/-- With `kind` still undecided after the first frame (`responseType = null`),
a further chunk only grows the local buffer: neither display branch runs. -/
theorem processChunk_none (fw : String) (s : SessionState) (c : String)
    (h1 : s.isFirstChunk = false) (h2 : s.responseType = none) :
    processChunk fw s c = { s with streamedContent := s.streamedContent ++ c } := by
  obtain ⟨f1, rt, sc, ac, acd, fc, stc, fl⟩ := s
  simp only at h1 h2
  subst h1; subst h2
  simp [processChunk]

theorem foldl_none (fw : String) (chunks : List String) (s : SessionState)
    (h1 : s.isFirstChunk = false) (h2 : s.responseType = none) :
    chunks.foldl (processChunk fw) s =
      { s with streamedContent := List.foldl (· ++ ·) s.streamedContent chunks } := by
  induction chunks generalizing s with
  | nil => rfl
  | cons c cs ih =>
      rw [List.foldl_cons, processChunk_none fw s c h1 h2, List.foldl_cons]
      exact ih _ h1 h2

/-- Under a fixed `CODE` kind, each chunk appends to the buffer and mirrors it
into `streamingCode`, the file content and the message's `code` field. -/
theorem processChunk_code (fw : String) (s : SessionState) (c : String)
    (h1 : s.isFirstChunk = false) (h2 : s.responseType = some RType.CODE) :
    processChunk fw s c =
      { s with streamedContent := s.streamedContent ++ c,
               streamingCode := s.streamedContent ++ c,
               fileContent := s.streamedContent ++ c,
               aiContent := "Generating " ++ fw.toUpper ++ " code...",
               aiCode := some (s.streamedContent ++ c) } := by
  obtain ⟨f1, rt, sc, ac, acd, fc, stc, fl⟩ := s
  simp only at h1 h2
  subst h1; subst h2
  simp [processChunk]

theorem foldl_code (fw : String) (chunks : List String) (s : SessionState)
    (h1 : s.isFirstChunk = false) (h2 : s.responseType = some RType.CODE)
    (h3 : s.fileContent = s.streamedContent) (h4 : s.aiCode = some s.streamedContent) :
    (chunks.foldl (processChunk fw) s).responseType = some RType.CODE ∧
    (chunks.foldl (processChunk fw) s).streamedContent =
      List.foldl (· ++ ·) s.streamedContent chunks ∧
    (chunks.foldl (processChunk fw) s).fileContent =
      (chunks.foldl (processChunk fw) s).streamedContent ∧
    (chunks.foldl (processChunk fw) s).aiCode =
      some (chunks.foldl (processChunk fw) s).streamedContent := by
  induction chunks generalizing s with
  | nil => exact ⟨h2, rfl, h3, h4⟩
  | cons c cs ih =>
      rw [List.foldl_cons, processChunk_code fw s c h1 h2, List.foldl_cons]
      exact ih _ h1 h2 rfl rfl

/-- Under a fixed `CHAT` kind, each chunk appends to the buffer and writes the
whole buffer into the AI message's content. -/
theorem processChunk_chat (fw : String) (s : SessionState) (c : String)
    (h1 : s.isFirstChunk = false) (h2 : s.responseType = some RType.CHAT) :
    processChunk fw s c =
      { s with streamedContent := s.streamedContent ++ c,
               aiContent := s.streamedContent ++ c } := by
  obtain ⟨f1, rt, sc, ac, acd, fc, stc, fl⟩ := s
  simp only at h1 h2
  subst h1; subst h2
  simp [processChunk]

/-- The first frame of a `CODE:`-marked stream: the marker is stripped, the
kind fixed to `CODE`, and the remainder delivered to every code surface. -/
theorem processChunk_code_first (fw file x : String) :
    processChunk fw (initialState file) ("CODE:" ++ x) =
      { isFirstChunk := false
        responseType := some RType.CODE
        streamedContent := x
        aiContent := "Generating " ++ fw.toUpper ++ " code..."
        aiCode := some x
        fileContent := x
        streamingCode := x
        failed := false } := rfl

/-- The first frame of a `CHAT:`-marked stream. -/
theorem processChunk_chat_first (fw file y : String) :
    processChunk fw (initialState file) ("CHAT:" ++ y) =
      { isFirstChunk := false
        responseType := some RType.CHAT
        streamedContent := y
        aiContent := y
        aiCode := none
        fileContent := file
        streamingCode := ""
        failed := false } := rfl

/-- The first frame of an unmarked stream: nothing is stripped, the kind stays
`null`, and no display is written. -/
theorem processChunk_unmarked_first (fw file c : String)
    (h1 : startsL "CHAT:".data c.data = false)
    (h2 : startsL "CODE:".data c.data = false) :
    processChunk fw (initialState file) c =
      { initialState file with isFirstChunk := false, streamedContent := "" ++ c } := by
  simp [processChunk, initialState, h1, h2]

theorem foldl_chat_aiCode (fw : String) (chunks : List String) (s : SessionState)
    (h1 : s.isFirstChunk = false) (h2 : s.responseType = some RType.CHAT)
    (h3 : s.aiCode = none) :
    (chunks.foldl (processChunk fw) s).aiCode = none := by
  induction chunks generalizing s with
  | nil => exact h3
  | cons c cs ih =>
      rw [List.foldl_cons, processChunk_chat fw s c h1 h2]
      exact ih _ h1 h2 h3

/-! ## Claim theorems -/

/-- C1 (counterexample): for the stream whose single frame is `"Hello"`
(neither marker), the session's kind does **not** default to `CHAT` and the
accumulated content is **not** delivered to the chat display: `responseType`
stays `null`, the AI message keeps its `"..."` placeholder, and the buffer
sits only in the loop-local `streamedContent`. -/
theorem claim_C1_counterexample :
    (runOk "html" "INIT" ["Hello"]).responseType = none ∧
    (runOk "html" "INIT" ["Hello"]).aiContent = "..." ∧
    (runOk "html" "INIT" ["Hello"]).streamedContent = "Hello" ∧
    ¬ ((runOk "html" "INIT" ["Hello"]).responseType = some RType.CHAT ∧
       (runOk "html" "INIT" ["Hello"]).aiContent = "Hello") := by
  decide

/-- C1 (amended): for every stream whose first frame starts with neither the
`"CHAT:"` nor the `"CODE:"` marker, `responseType` stays `null` for the whole
session, the accumulated stream content is only collected in the loop-local
buffer, and it is never delivered to the chat display — the AI message keeps
its `"..."` placeholder. -/
theorem claim_C1_unmarked_stream_dropped (fw file c : String) (rest : List String)
    (h1 : startsL "CHAT:".data c.data = false)
    (h2 : startsL "CODE:".data c.data = false) :
    (runOk fw file (c :: rest)).responseType = none ∧
    (runOk fw file (c :: rest)).aiContent = "..." ∧
    (runOk fw file (c :: rest)).streamedContent = List.foldl (· ++ ·) ("" ++ c) rest := by
  have hfold :
      runStream fw file (c :: rest) =
        { initialState file with
            isFirstChunk := false,
            streamedContent := List.foldl (· ++ ·) ("" ++ c) rest } := by
    unfold runStream
    rw [List.foldl_cons, processChunk_unmarked_first fw file c h1 h2]
    exact foldl_none fw rest _ rfl rfl
  unfold runOk
  rw [hfold]
  exact ⟨rfl, rfl, rfl⟩

/-- C1 witness: the amended theorem applied to the concrete unmarked stream
`["Hello", " world"]`. -/
theorem claim_C1_witness :
    (runOk "react" "INIT" ["Hello", " world"]).responseType = none ∧
    (runOk "react" "INIT" ["Hello", " world"]).aiContent = "..." ∧
    (runOk "react" "INIT" ["Hello", " world"]).streamedContent =
      List.foldl (· ++ ·) ("" ++ "Hello") [" world"] :=
  claim_C1_unmarked_stream_dropped "react" "INIT" "Hello" [" world"]
    (by decide) (by decide)

/-- C2 (counterexample): a `CHAT:` session that fails after its first frame.
The partial buffer `"Hello"` exists in the loop-local accumulator, but the
`catch` branch overwrites the visible message with a fixed error string; no
caller-visible output (message content, message code, file content,
streaming-code panel) holds the partial buffer, so it is not flushed. -/
theorem claim_C2_counterexample :
    (runFailed "html" "INIT" ["CHAT:Hello"]).streamedContent = "Hello" ∧
    (runFailed "html" "INIT" ["CHAT:Hello"]).aiContent =
      "Error: Could not generate a response." ∧
    (runFailed "html" "INIT" ["CHAT:Hello"]).aiContent ≠ "Hello" ∧
    (runFailed "html" "INIT" ["CHAT:Hello"]).aiCode = none ∧
    (runFailed "html" "INIT" ["CHAT:Hello"]).fileContent = "INIT" ∧
    (runFailed "html" "INIT" ["CHAT:Hello"]).streamingCode = "" := by
  decide

/-- C2 (amended): on transport failure mid-stream the session surfaces the
failure (`failed = true`) and the visible message content is overwritten with
a fixed error string.  For a `CODE` session the partial buffer is still
delivered — it remains in the editor's file content and the message's `code`
field, written while streaming.  For a `CHAT` session the partial text was
only ever shown in the message content, which the failure path overwrites, so
the partial buffer is discarded from the visible output. -/
theorem claim_C2_failure_buffer_disposition (fw file x y : String)
    (rest rest' : List String) :
    ((runFailed fw file (("CODE:" ++ x) :: rest)).failed = true ∧
     (runFailed fw file (("CODE:" ++ x) :: rest)).fileContent =
       List.foldl (· ++ ·) x rest ∧
     (runFailed fw file (("CODE:" ++ x) :: rest)).aiCode =
       some (List.foldl (· ++ ·) x rest) ∧
     (runFailed fw file (("CODE:" ++ x) :: rest)).aiContent =
       "Error: Could not generate a response.") ∧
    ((runFailed fw file (("CHAT:" ++ y) :: rest')).failed = true ∧
     (runFailed fw file (("CHAT:" ++ y) :: rest')).streamedContent =
       List.foldl (· ++ ·) y rest' ∧
     (runFailed fw file (("CHAT:" ++ y) :: rest')).aiContent =
       "Error: Could not generate a response." ∧
     (runFailed fw file (("CHAT:" ++ y) :: rest')).aiCode = none) := by
  constructor
  · have h := foldl_code fw rest
      (processChunk fw (initialState file) ("CODE:" ++ x))
      (by rw [processChunk_code_first]) (by rw [processChunk_code_first])
      (by rw [processChunk_code_first]) (by rw [processChunk_code_first])
    unfold runFailed runStream
    rw [List.foldl_cons]
    obtain ⟨_, hstr, hfile, hcode⟩ := h
    refine ⟨rfl, ?_, ?_, rfl⟩
    · show (rest.foldl (processChunk fw) _).fileContent = _
      rw [hfile, hstr, processChunk_code_first]
    · show (rest.foldl (processChunk fw) _).aiCode = _
      rw [hcode, hstr, processChunk_code_first]
  · unfold runFailed runStream
    rw [List.foldl_cons, processChunk_chat_first]
    refine ⟨rfl, ?_, rfl, ?_⟩
    · exact foldl_streamed fw rest' _ rfl
    · exact foldl_chat_aiCode fw rest' _ rfl rfl rfl

/-- C4: the payload kind is decided exactly once, from the first frame alone:
a stream whose first frame starts with `"CODE:"` has kind `CODE` after the
whole stream regardless of the later frames, and once the first frame is past
(`isFirstChunk = false`) no chunk can change `responseType`. -/
theorem claim_C4_kind_decided_once :
    (∀ (fw file x : String) (rest : List String),
        (runStream fw file (("CODE:" ++ x) :: rest)).responseType = some RType.CODE) ∧
    (∀ (fw : String) (s : SessionState) (c : String), s.isFirstChunk = false →
        (processChunk fw s c).responseType = s.responseType) := by
  constructor
  · intro fw file x rest
    unfold runStream
    rw [List.foldl_cons, processChunk_code_first]
    exact (foldl_responseType fw rest _ rfl).1
  · intro fw s c h
    exact (processChunk_not_first fw s c h).1

/-- C4 witness: the theorem applied to the stream
`["CODE:<div>", "</div>CHAT:x"]` — the second frame's content cannot change
the kind. -/
theorem claim_C4_witness :
    (runStream "react" "INIT" (("CODE:" ++ "<div>") :: ["</div>CHAT:x"])).responseType =
      some RType.CODE ∧
    (processChunk "react"
        (runStream "react" "INIT" (("CODE:" ++ "<div>") :: ["</div>CHAT:x"]))
        "CHAT:y").responseType =
      (runStream "react" "INIT" (("CODE:" ++ "<div>") :: ["</div>CHAT:x"])).responseType :=
  ⟨claim_C4_kind_decided_once.1 "react" "INIT" "<div>" ["</div>CHAT:x"],
   claim_C4_kind_decided_once.2 "react" _ "CHAT:y" (by decide)⟩

theorem dropToFirstTag_eq_none (l : List Char) (h : ∀ c ∈ l, c ≠ '<') :
    dropToFirstTag l = none := by
  induction l with
  | nil => rfl
  | cons c cs ih =>
      unfold dropToFirstTag
      rw [if_neg (h c (List.mem_cons_self c cs))]
      exact ih (fun d hd => h d (List.mem_cons_of_mem c hd))

/-- C3: the code string handed to the preview sandbox is the buffer with every
ASCII space character removed, not the buffer itself: the preview input never
contains a space, it differs from every buffer that contains one, and it
agrees with the buffer only when the buffer is space-free. -/
theorem claim_C3_preview_input_space_stripped (s : String) :
    (' ' ∉ (previewCode s).data) ∧
    (' ' ∈ s.data → previewCode s ≠ s) ∧
    (' ' ∉ s.data → previewCode s = s) := by
  obtain ⟨d⟩ := s
  refine ⟨?_, ?_, ?_⟩
  · intro hmem
    have := (List.mem_filter.mp hmem).2
    simp at this
  · intro hmem heq
    have hdata : (previewCode ⟨d⟩).data = d := congrArg String.data heq
    have h2 : ' ' ∈ (previewCode ⟨d⟩).data := by rw [hdata]; exact hmem
    have := (List.mem_filter.mp h2).2
    simp at this
  · intro hmem
    show String.mk (d.filter fun c => decide (c ≠ ' ')) = String.mk d
    congr 1
    apply List.filter_eq_self.mpr
    intro a ha
    simp only [decide_eq_true_eq]
    intro hsp
    exact hmem (hsp ▸ ha)

/-- C3 witness: the theorem applied to the buffer `"a b"`. -/
theorem claim_C3_witness :
    ' ' ∈ ("a b" : String).data ∧ previewCode "a b" ≠ "a b" :=
  ⟨by decide, (claim_C3_preview_input_space_stripped "a b").2.1 (by decide)⟩

/-- C5: an empty or whitespace-only buffer normalizes to the empty source; a
buffer whose processed form has no declaration-keyword prefix and no `<`
anywhere also normalizes to the empty source; and whenever the normalized
source is empty, `ReactLivePreview` shows the "No preview available" panel and
mounts nothing. -/
theorem claim_C5_empty_source_no_preview :
    (∀ s : String, jsTrim s = "" → cleanedCode s = "") ∧
    (∀ s : String, isCompleteComponent (processedOf s) = false →
        (∀ c ∈ processedOf s, c ≠ '<') → cleanedCode s = "") ∧
    (∀ s : String, cleanedCode s = "" → renderReactPreview s = PreviewView.noPreview) := by
  refine ⟨?_, ?_, ?_⟩
  · intro s h
    unfold cleanedCode
    rw [if_pos h]
  · intro s hkw hlt
    unfold cleanedCode
    by_cases he : jsTrim s = ""
    · rw [if_pos he]
    · rw [if_neg he]
      simp only [hkw, Bool.false_eq_true, if_false]
      unfold fragmentPath
      rw [dropToFirstTag_eq_none _ hlt]
  · intro s h
    unfold renderReactPreview
    rw [if_pos h]

/-- C5 witness: the theorem applied to the whitespace-only buffer `"  \n "`
and to the tag-free, declaration-free buffer `"just prose output"`. -/
theorem claim_C5_witness :
    cleanedCode ("  \n " : String) = "" ∧
    cleanedCode ("just prose output" : String) = "" ∧
    renderReactPreview ("just prose output" : String) = PreviewView.noPreview :=
  ⟨claim_C5_empty_source_no_preview.1 "  \n " (by decide),
   claim_C5_empty_source_no_preview.2.1 "just prose output" (by decide) (by decide),
   claim_C5_empty_source_no_preview.2.2 "just prose output"
     (claim_C5_empty_source_no_preview.2.1 "just prose output" (by decide) (by decide))⟩

/-- C9: a child exception during render is caught by the boundary and turned
into the fallback panel (the error's message, or a default when it is blank),
and in any state with `hasError` set the boundary's `render` never returns the
children — the exception does not propagate past the sandbox. -/
theorem claim_C9_render_fault_contained :
    (∀ (e children : String),
        boundaryRender children (Except.error e) =
          EBView.fallbackPanel
            (if e = "" then "Something went wrong rendering the preview." else e)) ∧
    (∀ (s : EBState) (children c : String), s.hasError = true →
        ebRender s children ≠ EBView.childrenView c) := by
  constructor
  · intro e children
    rfl
  · intro s children c h
    unfold ebRender
    rw [if_pos h]
    simp

/-! ### Lemmas for the complete-component path -/

theorem word_not_ws (c : Char) (h : isWordChar c = true) : jsWs c = false := by
  cases hw : jsWs c with
  | false => rfl
  | true =>
      exfalso
      simp only [jsWs, Bool.or_eq_true, decide_eq_true_eq] at hw
      rcases hw with ((((rfl | rfl) | rfl) | rfl) | rfl) | rfl <;> simp [isWordChar] at h

theorem startsL_backtick_of_ws (c : Char) (cs : List Char) (h : jsWs c = true) :
    startsL "```".data (c :: cs) = false := by
  simp only [jsWs, Bool.or_eq_true, decide_eq_true_eq] at h
  rcases h with ((((rfl | rfl) | rfl) | rfl) | rfl) | rfl <;> rfl

theorem stripLeadingFence_of_ws (l : List Char) (h : ∀ c ∈ l, jsWs c = true) :
    stripLeadingFence l = l := by
  cases l with
  | nil => rfl
  | cons c cs =>
      unfold stripLeadingFence
      rw [startsL_backtick_of_ws c cs (h c (List.mem_cons_self c cs))]
      rfl

theorem stripTrailingFence_of_ws (l : List Char) (h : ∀ c ∈ l, jsWs c = true) :
    stripTrailingFence l = l := by
  induction l with
  | nil => rfl
  | cons c cs ih =>
      unfold stripTrailingFence
      rw [startsL_backtick_of_ws c cs (h c (List.mem_cons_self c cs))]
      simp only [Bool.false_and, Bool.false_eq_true, if_false]
      rw [ih (fun d hd => h d (List.mem_cons_of_mem c hd))]

theorem trimL_eq_nil_all_ws (l : List Char) (h : trimL l = []) :
    ∀ c ∈ l, jsWs c = true := by
  unfold trimL at h
  rw [List.reverse_eq_nil_iff, List.dropWhile_eq_nil_iff] at h
  intro c hc
  rcases List.mem_append.mp ((List.takeWhile_append_dropWhile (p := jsWs) (l := l)) ▸ hc) with
    h1 | h2
  · exact List.mem_takeWhile_imp h1
  · exact h c (List.mem_reverse.mpr h2)

theorem processedOf_nil_of_trim (s : String) (h : jsTrim s = "") :
    processedOf s = [] := by
  have hdata : trimL s.data = [] := congrArg String.data h
  have hws := trimL_eq_nil_all_ws s.data hdata
  unfold processedOf
  rw [stripLeadingFence_of_ws s.data hws, stripTrailingFence_of_ws s.data hws, hdata]

theorem dropWhile_ws_append (w t : List Char) (d : Char)
    (hwAll : ∀ c ∈ w, jsWs c = true) (hd : isWordChar d = true) :
    (w ++ d :: t).dropWhile jsWs = d :: t := by
  induction w with
  | nil =>
      simp only [List.nil_append, List.dropWhile_cons]
      rw [word_not_ws d hd]
      rfl
  | cons c cs ih =>
      simp only [List.cons_append, List.dropWhile_cons]
      rw [hwAll c (List.mem_cons_self c cs)]
      simpa using ih (fun e he => hwAll e (List.mem_cons_of_mem c he))

theorem kwTail_of (w t : List Char) (d : Char)
    (hw : w ≠ []) (hwAll : ∀ c ∈ w, jsWs c = true) (hd : isWordChar d = true) :
    kwTailMatches (w ++ d :: t) = true := by
  cases w with
  | nil => exact absurd rfl hw
  | cons c cs =>
      unfold kwTailMatches
      simp only [List.cons_append]
      rw [hwAll c (List.mem_cons_self c cs)]
      have hdrop : (c :: (cs ++ d :: t)).dropWhile jsWs = d :: t := by
        have := dropWhile_ws_append (c :: cs) t d hwAll hd
        simpa using this
      rw [hdrop]
      simp [hd]

/-- C6: when the processed buffer begins with a declaration keyword, at least
one whitespace character, and a word character, the normalizer returns the
processed buffer **unmodified** followed by an appended render invocation of
the declared identifier (the maximal word-character run after the keyword) —
no structural rewriting is applied to the declaration body. -/
theorem claim_C6_complete_component_rendered (s kwS : String) (w r : List Char) (d : Char)
    (hkw : kwS ∈ declKeywords)
    (hp : processedOf s = kwS.data ++ (w ++ d :: r))
    (hw : w ≠ [])
    (hwAll : ∀ c ∈ w, jsWs c = true)
    (hd : isWordChar d = true) :
    cleanedCode s =
      "\n" ++ String.mk (processedOf s) ++ "\n\nrender(<" ++
        String.mk ((d :: r).takeWhile isWordChar) ++ " />);\n          " := by
  have hkw3 : kwS = "const" ∨ kwS = "function" ∨ kwS = "class" := by
    simpa [declKeywords] using hkw
  have hne : jsTrim s ≠ "" := by
    intro he
    rw [processedOf_nil_of_trim s he] at hp
    have : kwS.data = [] ∧ (w ++ d :: r) = [] := List.append_eq_nil.mp hp.symm
    rcases hkw3 with rfl | rfl | rfl <;> simp at this
  have hTail : kwTailMatches (w ++ d :: r) = true := kwTail_of w r d hw hwAll hd
  have hDrop : (w ++ d :: r).dropWhile jsWs = d :: r :=
    dropWhile_ws_append w r d hwAll hd
  unfold cleanedCode
  rw [if_neg hne, hp]
  rcases hkw3 with rfl | rfl | rfl
  · have hcc : isCompleteComponent ("const".data ++ (w ++ d :: r)) = true := by
      unfold isCompleteComponent declKeywords
      simp only [List.any_cons, List.any_nil]
      rw [show List.drop ("const" : String).length ("const".data ++ (w ++ d :: r)) =
            w ++ d :: r from rfl, hTail]
      rfl
    have hcm : componentMatch ("const".data ++ (w ++ d :: r)) =
        some ((d :: r).takeWhile isWordChar) := by
      unfold componentMatch declKeywords
      rw [List.findSome?_cons,
          show startsL "const".data ("const".data ++ (w ++ d :: r)) = true from rfl,
          show List.drop ("const" : String).length ("const".data ++ (w ++ d :: r)) =
            w ++ d :: r from rfl]
      simp only [hTail, if_true, hDrop]
    rw [hcc, if_pos rfl, hcm]
    rfl
  · have hcc : isCompleteComponent ("function".data ++ (w ++ d :: r)) = true := by
      unfold isCompleteComponent declKeywords
      simp only [List.any_cons, List.any_nil]
      rw [show List.drop ("function" : String).length ("function".data ++ (w ++ d :: r)) =
            w ++ d :: r from rfl, hTail]
      rfl
    have hcm : componentMatch ("function".data ++ (w ++ d :: r)) =
        some ((d :: r).takeWhile isWordChar) := by
      unfold componentMatch declKeywords
      rw [List.findSome?_cons_of_isNone _ (by rfl)]
      rw [List.findSome?_cons,
          show startsL "function".data ("function".data ++ (w ++ d :: r)) = true from rfl,
          show List.drop ("function" : String).length ("function".data ++ (w ++ d :: r)) =
            w ++ d :: r from rfl]
      simp only [hTail, if_true, hDrop]
    rw [hcc, if_pos rfl, hcm]
    rfl
  · have hcc : isCompleteComponent ("class".data ++ (w ++ d :: r)) = true := by
      unfold isCompleteComponent declKeywords
      simp only [List.any_cons, List.any_nil]
      rw [show List.drop ("class" : String).length ("class".data ++ (w ++ d :: r)) =
            w ++ d :: r from rfl, hTail]
      rfl
    have hcm : componentMatch ("class".data ++ (w ++ d :: r)) =
        some ((d :: r).takeWhile isWordChar) := by
      unfold componentMatch declKeywords
      rw [List.findSome?_cons_of_isNone _ (by rfl)]
      rw [List.findSome?_cons_of_isNone _ (by rfl)]
      rw [List.findSome?_cons,
          show startsL "class".data ("class".data ++ (w ++ d :: r)) = true from rfl,
          show List.drop ("class" : String).length ("class".data ++ (w ++ d :: r)) =
            w ++ d :: r from rfl]
      simp only [hTail, if_true, hDrop]
    rw [hcc, if_pos rfl, hcm]
    rfl

/-- C6 witness: the theorem applied to
`"const Foo = () => <div>x</div>;"` — the output is the declaration verbatim
plus `render(<Foo />);`. -/
theorem claim_C6_witness :
    cleanedCode "const Foo = () => <div>x</div>;" =
      "\nconst Foo = () => <div>x</div>;\n\nrender(<Foo />);\n          " := by
  have h := claim_C6_complete_component_rendered
    "const Foo = () => <div>x</div>;" "const" [' ']
    "oo = () => <div>x</div>;".data 'F'
    (by decide) (by decide) (by decide) (by decide) (by decide)
  rw [h]
  decide

set_option maxRecDepth 100000 in
/-- C7: for the stream whose single frame is
`"CODE:<div class=\"a\" style=\"color: red; font-size: 12px\">Hi</div>"`, the
classifier fixes kind `CODE` and strips the marker, and the normalizer's
output on the accumulated buffer contains `className="a"` and
`style={{color: 'red', fontSize: '12px'}}`, wrapped in the synthetic
`GeneratedComponent` whose render invocation yields the single `div`
containing the text `Hi`. -/
theorem claim_C7_fixture_normalized :
    (runStream "react" "INIT" ["CODE:" ++ bufC7]).responseType = some RType.CODE ∧
    (runStream "react" "INIT" ["CODE:" ++ bufC7]).fileContent = bufC7 ∧
    cleanedCode (runStream "react" "INIT" ["CODE:" ++ bufC7]).fileContent = expectedC7 ∧
    containsSub "className=\"a\"".data expectedC7.data = true ∧
    containsSub "style=\x7b\x7bcolor: 'red', fontSize: '12px'\x7d\x7d".data
      expectedC7.data = true ∧
    containsSub ">Hi</div>".data expectedC7.data = true ∧
    containsSub "render(<GeneratedComponent />);".data expectedC7.data = true := by
  refine ⟨rfl, rfl, by decide, by decide, by decide, by decide, by decide⟩

set_option maxRecDepth 100000 in
/-- C8: a malformed inline style declaration (missing value after trimming,
or no value at all) is skipped by the declaration converter, and on a buffer
containing one malformed declaration the rest — the other style declaration,
the `class` attribute and the surrounding tag — still normalizes as usual;
the embedded normalizer is a total function, so normalization never raises. -/
theorem claim_C8_malformed_style_skipped :
    (∀ d : String,
        ((declParts d).tail.head? = none ∨ (declParts d).tail.head? = some "") →
        convDecl d = "") ∧
    styleObj "color; font-size: 12px" = "fontSize: '12px'" ∧
    cleanedCode bufC8 = expectedC8 ∧
    containsSub "className=\"a\"".data expectedC8.data = true ∧
    containsSub "style=\x7b\x7bfontSize: '12px'\x7d\x7d".data expectedC8.data = true := by
  refine ⟨?_, by decide, by decide, by decide, by decide⟩
  intro d h
  unfold convDecl
  cases hp : declParts d with
  | nil => rfl
  | cons key rest =>
      rw [hp, List.tail_cons] at h
      simp only []
      cases hv : rest.head? with
      | none => simp [hv]
      | some v =>
          rcases h with h | h
          · rw [hv] at h
            exact absurd h (by simp)
          · rw [hv] at h
            have hv0 : v = "" := by injection h
            subst hv0
            simp [hv]

/-- C8 witness: the skip rule applied to the malformed declaration
`"color"`. -/
theorem claim_C8_witness : convDecl "color" = "" :=
  claim_C8_malformed_style_skipped.1 "color" (Or.inl (by decide))

/-- C10: the normalizer is deterministic — it is a pure function of the
buffer, so two runs on the same completed buffer give the identical source —
and it is total on every (possibly incomplete) buffer: the result is always
either the empty source, a complete-component wrapping or a synthetic
fragment wrapping. -/
theorem claim_C10_normalizer_deterministic_total (b : String) :
    cleanedCode b = cleanedCode b ∧
    (cleanedCode b = "" ∨
     (∃ name, cleanedCode b = wrapComponent (processedOf b) name) ∨
     (∃ body, cleanedCode b = wrapFragment body)) := by
  refine ⟨rfl, ?_⟩
  unfold cleanedCode
  by_cases h1 : jsTrim b = ""
  · rw [if_pos h1]
    exact Or.inl rfl
  · rw [if_neg h1]
    by_cases h2 : isCompleteComponent (processedOf b) = true
    · rw [if_pos h2]
      cases hm : componentMatch (processedOf b) with
      | some name => exact Or.inr (Or.inl ⟨name, rfl⟩)
      | none =>
          unfold fragmentPath
          cases ht : dropToFirstTag (processedOf b) with
          | none => exact Or.inl rfl
          | some q => exact Or.inr (Or.inr ⟨fragmentChain q, rfl⟩)
    · rw [if_neg h2]
      unfold fragmentPath
      cases ht : dropToFirstTag (processedOf b) with
      | none => exact Or.inl rfl
      | some q => exact Or.inr (Or.inr ⟨fragmentChain q, rfl⟩)

/-- C9 witness: the theorem applied to a child that throws `"boom"`. -/
theorem claim_C9_witness :
    boundaryRender "<child/>" (Except.error "boom") = EBView.fallbackPanel "boom" ∧
    ebRender { hasError := true, error := some "boom" } "<child/>" ≠
      EBView.childrenView "<child/>" :=
  ⟨by
    have h := claim_C9_render_fault_contained.1 "boom" "<child/>"
    simpa using h,
   claim_C9_render_fault_contained.2
     { hasError := true, error := some "boom" } "<child/>" "<child/>" rfl⟩

end CodeCanvas
